import Mathlib

/- Verification development for mva_parser.py: WKT polygon extraction
   (parse_geometry), decimal-degree to DMS formatting (decimal_to_dms),
   altitude formatting (format_altitude), centroid location
   (calculate_centroid) and Topsky entry generation
   (generate_line_entries, generate_text_entries), together with the
   altitude fallback of the convert_csv_to_topsky driver.

   Real numbers of the Python source (floats) are modelled exactly as
   rationals; strings are modelled as Lean strings, processed through
   their character lists. -/

namespace MvaParser

/-- Python ASCII whitespace, the ASCII part of the regex class \s and of
the default str.strip and str.split separators. -/
def pyWS (c : Char) : Bool :=
  c = ' ' || c = '\t' || c = '\n' || c = '\r' || c = '\x0b' || c = '\x0c'

/-- Model of Python str.strip(): remove leading and trailing whitespace. -/
def stripWS (l : List Char) : List Char :=
  ((l.dropWhile pyWS).reverse.dropWhile pyWS).reverse

/-- Model of Python str.split(sep) for a one-character separator: split at
every occurrence, keeping empty chunks.  The result is always nonempty. -/
def splitOnChar (sep : Char) : List Char → List (List Char)
  | [] => [[]]
  | c :: r =>
    let res := splitOnChar sep r
    if c = sep then [] :: res
    else
      match res with
      | [] => [[c]]
      | h :: t => (c :: h) :: t

/-- Longest whitespace-free first chunk of a list and the remainder. -/
def takeWord : List Char → List Char × List Char
  | [] => ([], [])
  | c :: r =>
    if pyWS c then ([], c :: r)
    else
      let p := takeWord r
      (c :: p.1, p.2)

theorem takeWord_snd_length_le : ∀ l : List Char, (takeWord l).2.length ≤ l.length := by
  intro l
  induction l with
  | nil => simp [takeWord]
  | cons c r ih =>
    simp only [takeWord]
    by_cases h : pyWS c
    · simp [h]
    · simp only [h, Bool.false_eq_true, if_false, List.length_cons]
      omega

/-- Model of Python str.split() with no argument: split on whitespace
runs, dropping empty chunks. -/
def pySplitWS (l : List Char) : List (List Char) :=
  match l with
  | [] => []
  | c :: r =>
    if pyWS c then pySplitWS r
    else
      let p := takeWord r
      (c :: p.1) :: pySplitWS p.2
termination_by l.length
decreasing_by
  · simp only [List.length_cons]
    omega
  · have := takeWord_snd_length_le r
    simp only [List.length_cons]
    omega

/-- Decimal digit representation of a natural number, as produced by
Python str() and by the d conversion of format strings. -/
def decRepr (n : ℕ) : List Char :=
  if n < 10 then [Char.ofNat (48 + n)]
  else decRepr (n / 10) ++ [Char.ofNat (48 + n % 10)]
termination_by n
decreasing_by
  exact Nat.div_lt_self (by omega) (by omega)

/-- Zero padding to a minimum width, as in the Python format specifier
0wd applied to a nonnegative integer. -/
def padZeros (w : ℕ) (l : List Char) : List Char :=
  List.replicate (w - l.length) '0' ++ l

/-- Optional sign at the head of a numeric literal: the sign factor and
the remainder. -/
def readSign : List Char → ℤ × List Char
  | '+' :: r => (1, r)
  | '-' :: r => (-1, r)
  | l => (1, l)

/-- Maximal digit chunk at the head of a list, and the remainder. -/
def splitDigits : List Char → List Char × List Char
  | [] => ([], [])
  | c :: r =>
    if c.isDigit then
      let p := splitDigits r
      (c :: p.1, p.2)
    else ([], c :: r)

/-- Numeric value of a digit list read left to right. -/
def digitsVal (l : List Char) : ℕ :=
  l.foldl (fun a c => a * 10 + (c.toNat - 48)) 0

/-- Exponent part of a Python float literal: empty means exponent 0, an
e or E followed by an optionally signed digit chunk consuming the whole
remainder gives that exponent, anything else fails. -/
def parseExpPart : List Char → Option ℤ
  | [] => some 0
  | c :: r =>
    if c = 'e' ∨ c = 'E' then
      let sg := readSign r
      let ed := splitDigits sg.2
      if ed.1 = [] then none
      else if ed.2 = [] then some (sg.1 * (digitsVal ed.1 : ℤ))
      else none
    else none

/-- Model of Python float(str) on its numeric-literal domain, exact over
ℚ: optional surrounding whitespace, optional sign, a mantissa that is
digits, digits.digits, digits. or .digits, and an optional exponent.
The special values inf and nan and digit-group underscores are outside
the model and are treated as parse failures. -/
def pyFloatChars? (l : List Char) : Option ℚ :=
  let t := stripWS l
  let sg := readSign t
  let ip := splitDigits sg.2
  match ip.2 with
  | '.' :: t3 =>
    let fp := splitDigits t3
    if ip.1 = [] ∧ fp.1 = [] then none
    else
      match parseExpPart fp.2 with
      | none => none
      | some e =>
        some ((sg.1 : ℚ) * ((digitsVal ip.1 : ℚ) +
          (digitsVal fp.1 : ℚ) / 10 ^ fp.1.length) * 10 ^ e)
  | t2 =>
    if ip.1 = [] then none
    else
      match parseExpPart t2 with
      | none => none
      | some e => some ((sg.1 : ℚ) * (digitsVal ip.1 : ℚ) * 10 ^ e)

/-- Model of Python float(str) on Lean strings. -/
def pyFloat? (s : String) : Option ℚ :=
  pyFloatChars? s.data

/-- Model of Python int() applied to a float: truncation toward zero. -/
def pyTrunc (q : ℚ) : ℤ :=
  if q < 0 then -⌊-q⌋ else ⌊q⌋

/-- Model of Python round() to an integer: round half to even. -/
def pyRound (q : ℚ) : ℤ :=
  if q - ⌊q⌋ < 1 / 2 then ⌊q⌋
  else if 1 / 2 < q - ⌊q⌋ then ⌊q⌋ + 1
  else if ⌊q⌋ % 2 = 0 then ⌊q⌋ else ⌊q⌋ + 1

/-- Embeds format_altitude (mva_parser.py lines 111-132).  The argument
is None or a string.  An empty string returns None; a parse failure of
float() returns None (the caught ValueError); a truncated value at most
0 returns None; otherwise the truncated value is floor-divided by 100
and rendered in decimal.  Since the division is only reached when the
truncated value is positive, it is taken here on ℕ, where it agrees
with Python floor division. -/
def format_altitude (altitude : Option String) : Option String :=
  match altitude with
  | none => none
  | some s =>
    if s = "" then none
    else
      match pyFloat? s with
      | none => none
      | some q =>
        let alt_int : ℤ := pyTrunc q
        if alt_int ≤ 0 then none
        else some (String.mk (decRepr (alt_int.toNat / 100)))

/-- The degrees variable of decimal_to_dms (mva_parser.py line 88):
floor of the absolute value. -/
def dmsDeg (v : ℚ) : ℕ := (⌊|v|⌋).toNat

/-- The decimal_minutes variable of decimal_to_dms (line 89). -/
def dmsDecMin (v : ℚ) : ℚ := (|v| - dmsDeg v) * 60

/-- The minutes variable of decimal_to_dms (line 90). -/
def dmsMin (v : ℚ) : ℕ := (⌊dmsDecMin v⌋).toNat

/-- The decimal_seconds variable of decimal_to_dms (line 91). -/
def dmsDecSec (v : ℚ) : ℚ := (dmsDecMin v - dmsMin v) * 60

/-- The seconds variable of decimal_to_dms (line 92), before the carry. -/
def dmsSec (v : ℚ) : ℕ := (pyRound (dmsDecSec v)).toNat

/-- Degrees, minutes and seconds computed by decimal_to_dms
(mva_parser.py lines 85-100): absolute value, floor degrees, floor
minutes, seconds rounded to the nearest integer, then the carry for
seconds = 60 and minutes = 60. -/
def dmsComponents (v : ℚ) : ℕ × ℕ × ℕ :=
  let s1 := if dmsSec v = 60 then 0 else dmsSec v
  let m1 := if dmsSec v = 60 then dmsMin v + 1 else dmsMin v
  let m2 := if m1 = 60 then 0 else m1
  let d1 := if m1 = 60 then dmsDeg v + 1 else dmsDeg v
  (d1, m2, s1)

/-- Rendering of the DMS output string of decimal_to_dms (line 109):
direction letter, degrees zero-padded to width 3, period, minutes
zero-padded to width 2, period, seconds zero-padded to width 2, period,
literal 000. -/
def renderDMS (dir : Char) (d m s : ℕ) : String :=
  String.mk (dir :: (padZeros 3 (decRepr d) ++ '.' ::
    (padZeros 2 (decRepr m) ++ '.' ::
      (padZeros 2 (decRepr s) ++ ['.', '0', '0', '0']))))

/-- Embeds decimal_to_dms (mva_parser.py lines 80-109). -/
def decimal_to_dms (decimal_deg : ℚ) (is_latitude : Bool) : String :=
  let neg := decimal_deg < 0
  let c := dmsComponents decimal_deg
  let dir : Char :=
    if is_latitude then (if neg then 'S' else 'N')
    else (if neg then 'W' else 'E')
  renderDMS dir c.1 c.2.1 c.2.2

/-- Test that a pattern is a leading segment of a list. -/
def begins : List Char → List Char → Bool
  | [], _ => true
  | _ :: _, [] => false
  | p :: ps, c :: cs => p = c && begins ps cs

/-- Test that a pattern occurs as a contiguous segment anywhere in a
list. -/
def containsSub (pat : List Char) : List Char → Bool
  | [] => begins pat []
  | c :: r => begins pat (c :: r) || containsSub pat r

/-- Drop the regex class \s* greedily from the head of a list. -/
def skipWS : List Char → List Char
  | [] => []
  | c :: r => if pyWS c then skipWS r else c :: r

/-- Model of the lazy group followed by the two closing parentheses in
the regex patterns of parse_geometry: the shortest newline-free chunk
up to a first occurrence of two consecutive closing parentheses, with
the remainder after them; none when no such occurrence exists before a
newline or the end (the regex . does not match a newline). -/
def grabContent : List Char → Option (List Char × List Char)
  | [] => none
  | [_] => none
  | c1 :: c2 :: rest =>
    if c1 = ')' ∧ c2 = ')' then some ([], rest)
    else if c1 = '\n' then none
    else
      match grabContent (c2 :: rest) with
      | some p => some (c1 :: p.1, p.2)
      | none => none

/-- Presence, anywhere in a list, of either a newline or two
consecutive closing parentheses: the conditions ending (or blocking)
the lazy group of the parse_geometry regex patterns. -/
def hasStop : List Char → Bool
  | [] => false
  | [c] => c = '\n'
  | c1 :: c2 :: r =>
    if c1 = ')' ∧ c2 = ')' then true
    else if c1 = '\n' then true
    else hasStop (c2 :: r)

/-- ASCII upper-casing of a character, to express letter-case
variation of the POLYGON keyword. -/
def upcase (ch : Char) : Char :=
  if 'a' ≤ ch ∧ ch ≤ 'z' then Char.ofNat (ch.toNat - 32) else ch

/-- The characters of the regex literal POLYGON. -/
def polyKW : List Char := ['P', 'O', 'L', 'Y', 'G', 'O', 'N']

/-- Attempted match of the first parse_geometry pattern at the head of
the list: POLYGON, then \s*, then two opening parentheses, then the
lazy group closed by two closing parentheses. -/
def matchPolyAt (s : List Char) : Option (List Char) :=
  if begins polyKW s then
    match skipWS (s.drop 7) with
    | c1 :: c2 :: rest =>
      if c1 = '(' ∧ c2 = '(' then (grabContent rest).map Prod.fst else none
    | _ => none
  else none

/-- Model of re.search with the first parse_geometry pattern: the
capture of the leftmost match. -/
def searchPoly : List Char → Option (List Char)
  | [] => none
  | c :: r =>
    match matchPolyAt (c :: r) with
    | some res => some res
    | none => searchPoly r

/-- Attempted match of the fallback pattern at the head of the list:
two opening parentheses, then the lazy group closed by two closing
parentheses. -/
def matchDDAt (s : List Char) : Option (List Char) :=
  match s with
  | c1 :: c2 :: rest =>
    if c1 = '(' ∧ c2 = '(' then (grabContent rest).map Prod.fst else none
  | _ => none

/-- Model of re.search with the fallback parse_geometry pattern. -/
def searchDD : List Char → Option (List Char)
  | [] => none
  | c :: r =>
    match matchDDAt (c :: r) with
    | some res => some res
    | none => searchDD r

/-- One coordinate-pair token of parse_geometry (mva_parser.py lines
59-68): strip, split on whitespace, require at least two components,
parse both as floats (a failure drops the pair), read the first as
longitude and the second as latitude, keep the pair when both are in
range, appending it as a latitude-longitude pair. -/
def parsePair (tok : List Char) : Option (ℚ × ℚ) :=
  match pySplitWS (stripWS tok) with
  | p0 :: p1 :: _ =>
    match pyFloatChars? p0, pyFloatChars? p1 with
    | some lon, some lat =>
      if -180 ≤ lon ∧ lon ≤ 180 ∧ -90 ≤ lat ∧ lat ≤ 90 then some (lat, lon)
      else none
    | _, _ => none
  | _ => none

/-- Coordinate extraction applied to the captured group (mva_parser.py
lines 56-74): split on commas, parse each token, require at least three
valid pairs. -/
def processContent (content : List Char) : List (ℚ × ℚ) :=
  let coords := (splitOnChar ',' content).filterMap parsePair
  if coords.length < 3 then [] else coords

/-- Embeds parse_geometry (mva_parser.py lines 34-78).  The argument is
None or a string (the source also returns [] for any non-string value,
and for an empty string through its falsiness test).  The two re.search
patterns are tried in order; with no match the result is []. -/
def parse_geometry (geometry_str : Option String) : List (ℚ × ℚ) :=
  match geometry_str with
  | none => []
  | some s =>
    if s = "" then []
    else
      match (match searchPoly s.data with
             | some c => some c
             | none => searchDD s.data) with
      | none => []
      | some content => processContent content

/-- Abstract interface of the external Shapely polygon object built by
calculate_centroid from the coordinate list (mva_parser.py line 175).
Shapely is a third-party library, not part of this repository, so its
operations are parameters of the embedding: points are pairs (x, y) =
(longitude, latitude) of exact rationals, is_empty is a boolean,
centroid and representative_point return a point or raise (the raised
case is Except.error, landing in the except branch of the source), and
contains is a boolean predicate on points. -/
structure GeomBackend where
  isEmpty : Bool
  centroid : Except Unit (ℚ × ℚ)
  contains : ℚ × ℚ → Bool
  reprPoint : Except Unit (ℚ × ℚ)

/-- The vertex-average fallback of calculate_centroid (mva_parser.py
lines 203-205 and 210-212): mean latitude and mean longitude of the
coordinate list. -/
def vertexMean (coords : List (ℚ × ℚ)) : ℚ × ℚ :=
  ((coords.map Prod.fst).sum / coords.length,
   (coords.map Prod.snd).sum / coords.length)

/-- The bounded bisection loop of calculate_centroid (mva_parser.py
lines 192-197): move the test point halfway toward the inside point,
return it as soon as it is contained, give up after the fuel runs out. -/
def bisectLoop (G : GeomBackend) (test inside : ℚ × ℚ) : ℕ → Option (ℚ × ℚ)
  | 0 => none
  | n + 1 =>
    let mid := ((test.1 + inside.1) / 2, (test.2 + inside.2) / 2)
    if G.contains mid then some mid else bisectLoop G mid inside n

/-- The sequence of bisection candidates: index 0 is the starting point
and each later index is the midpoint of its predecessor and the inside
point.  Index i is the point tested at iteration i of the loop. -/
def midSeq (start inside : ℚ × ℚ) : ℕ → ℚ × ℚ
  | 0 => start
  | n + 1 =>
    let p := midSeq start inside n
    ((p.1 + inside.1) / 2, (p.2 + inside.2) / 2)

/-- Embeds calculate_centroid (mva_parser.py lines 163-212) in the
branch where Shapely is available, over the abstract backend G built
from the coordinate list.  The exceptions Shapely may raise inside the
try block are modelled by the Except results of centroid and
representative_point; a raise reaches the arithmetic-mean fallback of
the except handler.  Coordinates are latitude-longitude pairs and the
returned point swaps the backend point (x, y) into that order. -/
def calculate_centroid (G : GeomBackend) (coords : List (ℚ × ℚ)) :
    Option (ℚ × ℚ) :=
  if coords.length < 3 then none
  else if G.isEmpty then none
  else
    match G.centroid with
    | .error _ => some (vertexMean coords)
    | .ok c =>
      if G.contains c then some (c.2, c.1)
      else
        match G.reprPoint with
        | .error _ => some (vertexMean coords)
        | .ok inside =>
          match bisectLoop G c inside 10 with
          | some p => some (p.2, p.1)
          | none => some (inside.2, inside.1)

/-- Embeds the branch of calculate_centroid taken when Shapely is not
available (mva_parser.py lines 201-205): the arithmetic mean of the
vertices. -/
def calculate_centroid_noshapely (coords : List (ℚ × ℚ)) :
    Option (ℚ × ℚ) :=
  if coords.length < 3 then none
  else some (vertexMean coords)

/-- One polygon record of the driver: a coordinate list and an altitude
value (None or a string, as read from the CSV row). -/
structure PolyRec where
  coords : List (ℚ × ℚ)
  altitude : Option String

/-- The LINE entry built for edge i of a coordinate list (mva_parser.py
lines 147-158); the successor index wraps around modulo the length. -/
def lineEntry (coords : List (ℚ × ℚ)) (i : ℕ) : String :=
  let p1 := coords.getD i (0, 0)
  let p2 := coords.getD ((i + 1) % coords.length) (0, 0)
  "LINE:" ++ decimal_to_dms p1.1 true ++ ":" ++ decimal_to_dms p1.2 false ++
    ":" ++ decimal_to_dms p2.1 true ++ ":" ++ decimal_to_dms p2.2 false

/-- Embeds generate_line_entries (mva_parser.py lines 134-161):
polygons with fewer than 3 coordinates are skipped, and each other
polygon contributes one LINE entry per vertex index. -/
def generate_line_entries (polygons : List PolyRec) : List String :=
  polygons.flatMap fun p =>
    if p.coords.length < 3 then []
    else (List.range p.coords.length).map (lineEntry p.coords)

/-- Embeds generate_text_entries (mva_parser.py lines 214-246) over a
geometry backend constructor mapping each coordinate list to its
Shapely polygon object: polygons with fewer than 3 coordinates are
skipped, a missing centroid skips the polygon, a falsy formatted
altitude (None or empty) skips the polygon, and otherwise one TEXT
entry is emitted. -/
def generate_text_entries (geom : List (ℚ × ℚ) → GeomBackend)
    (polygons : List PolyRec) : List String :=
  polygons.flatMap fun p =>
    if p.coords.length < 3 then []
    else
      match calculate_centroid (geom p.coords) p.coords with
      | none => []
      | some centroid =>
        match format_altitude p.altitude with
        | none => []
        | some alt_str =>
          if alt_str = "" then []
          else ["TEXT:" ++ decimal_to_dms centroid.1 true ++ ":" ++
                decimal_to_dms centroid.2 false ++ ":" ++ alt_str]

/-- Python truthiness of the optional formatted altitude strings in the
driver: None and the empty string are falsy. -/
def truthy : Option String → Bool
  | none => false
  | some s => s ≠ ""

/-- Embeds the altitude fallback of convert_csv_to_topsky
(mva_parser.py lines 304-322): after formatting both columns, a row
with exactly one usable altitude copies it to the other side, and a row
with none substitutes the raw default 30 on both sides.  The result is
the pair of raw altitude values attached to the warm and cold polygon
records. -/
def resolve_row_altitudes (warm_alt cold_alt : Option String) :
    Option String × Option String :=
  let warm_fmt := format_altitude warm_alt
  let cold_fmt := format_altitude cold_alt
  if truthy warm_fmt ∧ ¬ truthy cold_fmt then (warm_alt, warm_alt)
  else if truthy cold_fmt ∧ ¬ truthy warm_fmt then (cold_alt, cold_alt)
  else if ¬ truthy warm_fmt ∧ ¬ truthy cold_fmt then (some "30", some "30")
  else (warm_alt, cold_alt)

/- Supporting lemmas. -/

theorem pyRound_abs_sub_le (q : ℚ) : |(pyRound q : ℚ) - q| ≤ 1 / 2 := by
  have hle := Int.floor_le q
  have hlt := Int.lt_floor_add_one q
  unfold pyRound
  split_ifs with h1 h2 h3 <;> rw [abs_le] <;> push_cast <;>
    constructor <;> linarith

theorem pyRound_nonneg {q : ℚ} (h : 0 ≤ q) : 0 ≤ pyRound q := by
  have h0 : (0 : ℤ) ≤ ⌊q⌋ := Int.floor_nonneg.2 h
  unfold pyRound
  split_ifs <;> omega

theorem pyRound_le_floor_add_one (q : ℚ) : pyRound q ≤ ⌊q⌋ + 1 := by
  unfold pyRound
  split_ifs <;> omega

theorem decRepr_length_pos (n : ℕ) : 1 ≤ (decRepr n).length := by
  rw [decRepr]
  by_cases h : n < 10 <;> simp [h]

theorem decRepr_length_le : ∀ (k n : ℕ), n < 10 ^ (k + 1) → (decRepr n).length ≤ k + 1 := by
  intro k
  induction k with
  | zero =>
    intro n hn
    rw [decRepr]
    have hn' : n < 10 := by simpa using hn
    simp [hn']
  | succ k ih =>
    intro n hn
    rw [decRepr]
    by_cases h : n < 10
    · simp [h]
    · simp only [h, if_false, List.length_append, List.length_cons, List.length_nil]
      have hdiv : n / 10 < 10 ^ (k + 1) := by
        rw [Nat.div_lt_iff_lt_mul (by omega)]
        calc n < 10 ^ (k + 1 + 1) := hn
        _ = 10 ^ (k + 1) * 10 := by ring
      have := ih (n / 10) hdiv
      omega

theorem padZeros_length (w : ℕ) (l : List Char) :
    (padZeros w l).length = max w l.length := by
  simp only [padZeros, List.length_append, List.length_replicate]
  omega

theorem dmsDeg_cast (v : ℚ) : ((dmsDeg v : ℕ) : ℚ) = (⌊|v|⌋ : ℚ) := by
  have hfl : (0 : ℤ) ≤ ⌊|v|⌋ := Int.floor_nonneg.2 (abs_nonneg v)
  exact_mod_cast congrArg (fun z : ℤ => (z : ℚ)) (Int.toNat_of_nonneg hfl)

theorem dmsDecMin_bounds (v : ℚ) : 0 ≤ dmsDecMin v ∧ dmsDecMin v < 60 := by
  have h1 : (⌊|v|⌋ : ℚ) ≤ |v| := Int.floor_le _
  have h2 : |v| < (⌊|v|⌋ : ℚ) + 1 := Int.lt_floor_add_one _
  have hcast := dmsDeg_cast v
  constructor
  · simp only [dmsDecMin, hcast]
    nlinarith
  · simp only [dmsDecMin, hcast]
    nlinarith

theorem dmsMin_cast (v : ℚ) : ((dmsMin v : ℕ) : ℚ) = (⌊dmsDecMin v⌋ : ℚ) := by
  have hfl : (0 : ℤ) ≤ ⌊dmsDecMin v⌋ := Int.floor_nonneg.2 (dmsDecMin_bounds v).1
  exact_mod_cast congrArg (fun z : ℤ => (z : ℚ)) (Int.toNat_of_nonneg hfl)

theorem dmsMin_le (v : ℚ) : dmsMin v ≤ 59 := by
  obtain ⟨h0, h1⟩ := dmsDecMin_bounds v
  have hfl : ⌊dmsDecMin v⌋ < (60 : ℤ) := Int.floor_lt.2 (by exact_mod_cast h1)
  simp only [dmsMin]
  omega

theorem dmsDecSec_bounds (v : ℚ) : 0 ≤ dmsDecSec v ∧ dmsDecSec v < 60 := by
  have hcast := dmsMin_cast v
  have ha : (⌊dmsDecMin v⌋ : ℚ) ≤ dmsDecMin v := Int.floor_le _
  have hb : dmsDecMin v < (⌊dmsDecMin v⌋ : ℚ) + 1 := Int.lt_floor_add_one _
  constructor
  · simp only [dmsDecSec, hcast]
    nlinarith
  · simp only [dmsDecSec, hcast]
    nlinarith

theorem dmsSec_le (v : ℚ) : dmsSec v ≤ 60 := by
  obtain ⟨h0, h1⟩ := dmsDecSec_bounds v
  have hup : pyRound (dmsDecSec v) ≤ ⌊dmsDecSec v⌋ + 1 := pyRound_le_floor_add_one _
  have hfl : ⌊dmsDecSec v⌋ < (60 : ℤ) := Int.floor_lt.2 (by exact_mod_cast h1)
  simp only [dmsSec]
  omega

/-- Exact sexagesimal decomposition before rounding: the absolute value
splits into degrees, minutes and decimal seconds. -/
theorem dms_decomposition (v : ℚ) :
    |v| = (dmsDeg v : ℚ) + (dmsMin v : ℚ) / 60 + dmsDecSec v / 3600 := by
  have e1 : dmsDecMin v = (|v| - (dmsDeg v : ℚ)) * 60 := rfl
  have e2 : dmsDecSec v = (dmsDecMin v - (dmsMin v : ℚ)) * 60 := rfl
  rw [e2, e1]
  ring

/-- The rounded seconds value, as a rational, is within a half of the
decimal seconds. -/
theorem dmsSec_close (v : ℚ) : |((dmsSec v : ℕ) : ℚ) - dmsDecSec v| ≤ 1 / 2 := by
  have hnn : 0 ≤ pyRound (dmsDecSec v) := pyRound_nonneg (dmsDecSec_bounds v).1
  have hcast : ((dmsSec v : ℕ) : ℚ) = ((pyRound (dmsDecSec v) : ℤ) : ℚ) := by
    exact_mod_cast congrArg (fun z : ℤ => (z : ℚ)) (Int.toNat_of_nonneg hnn)
  rw [hcast]
  exact pyRound_abs_sub_le _

/-- The carry step preserves the represented value, keeps minutes and
seconds below 60, and increments degrees by at most one. -/
theorem dmsComponents_spec (v : ℚ) :
    (dmsComponents v).2.1 < 60 ∧ (dmsComponents v).2.2 < 60 ∧
    (dmsComponents v).1 ≤ dmsDeg v + 1 ∧
    ((dmsComponents v).1 : ℚ) + ((dmsComponents v).2.1 : ℚ) / 60 +
      ((dmsComponents v).2.2 : ℚ) / 3600 =
      (dmsDeg v : ℚ) + (dmsMin v : ℚ) / 60 + (dmsSec v : ℚ) / 3600 := by
  have hm := dmsMin_le v
  have hs := dmsSec_le v
  simp only [dmsComponents]
  split_ifs with h1 h2 h2
  · refine ⟨by omega, by omega, by omega, ?_⟩
    have h59 : dmsMin v = 59 := by omega
    rw [h1, h59]
    push_cast
    ring
  · refine ⟨by omega, by omega, by omega, ?_⟩
    rw [h1]
    push_cast
    ring
  · exact absurd h2 (by omega)
  · exact ⟨by omega, by omega, by omega, rfl⟩

/-- The combined distance of the rendered components from the absolute
value is at most half an arc-second. -/
theorem dms_value_close (v : ℚ) :
    abs ((((dmsComponents v).1 : ℚ) + ((dmsComponents v).2.1 : ℚ) / 60 +
      ((dmsComponents v).2.2 : ℚ) / 3600) - |v|) ≤ 1 / 7200 := by
  obtain ⟨-, -, -, heq⟩ := dmsComponents_spec v
  have h1 := dmsSec_close v
  have h2 := dms_decomposition v
  rw [heq, h2]
  have h3 : (dmsDeg v : ℚ) + (dmsMin v : ℚ) / 60 + (dmsSec v : ℚ) / 3600 -
      ((dmsDeg v : ℚ) + (dmsMin v : ℚ) / 60 + dmsDecSec v / 3600) =
      ((dmsSec v : ℚ) - dmsDecSec v) / 3600 := by ring
  rw [h3, abs_div]
  have h3600 : |(3600 : ℚ)| = 3600 := by norm_num
  rw [h3600, div_le_iff₀ (by norm_num : (0 : ℚ) < 3600)]
  rw [abs_le] at h1 ⊢
  constructor <;> linarith

/-- Unfolding of decimal_to_dms into its direction letter and its
components. -/
theorem decimal_to_dms_eq (v : ℚ) (is_latitude : Bool) :
    decimal_to_dms v is_latitude =
      renderDMS (if is_latitude then (if v < 0 then 'S' else 'N')
                 else (if v < 0 then 'W' else 'E'))
        (dmsComponents v).1 (dmsComponents v).2.1 (dmsComponents v).2.2 := rfl

/- Claim theorems. -/

/-- C2 (amended): for every rational value v and either axis,
decimal_to_dms returns the direction letter ('N'/'S' for latitude by
the sign of v, 'E'/'W' for longitude) immediately followed by degrees
zero-padded to a minimum width of 3 digits (exactly 3 digits unless the
carried degrees reach 1000), a period, 2-digit minutes below 60, a
period, 2-digit seconds below 60 representing, together with the carry,
the absolute value to the nearest second, a period, and the literal
000; in particular decimal_to_dms 52.5 latitude = "N052.30.00.000" and
decimal_to_dms (-0.5) longitude = "W000.30.00.000". -/
theorem decimal_to_dms_format (v : ℚ) (is_latitude : Bool) :
    ∃ d m s : ℕ,
      decimal_to_dms v is_latitude =
        renderDMS (if is_latitude then (if v < 0 then 'S' else 'N')
                   else (if v < 0 then 'W' else 'E')) d m s ∧
      m < 60 ∧ s < 60 ∧
      (padZeros 2 (decRepr m)).length = 2 ∧
      (padZeros 2 (decRepr s)).length = 2 ∧
      3 ≤ (padZeros 3 (decRepr d)).length ∧
      ((padZeros 3 (decRepr d)).length = 3 ∨ 1000 ≤ d) ∧
      abs (((d : ℚ) + (m : ℚ) / 60 + (s : ℚ) / 3600) - |v|) ≤ 1 / 7200 ∧
      decimal_to_dms (52.5 : ℚ) true = "N052.30.00.000" ∧
      decimal_to_dms (-0.5 : ℚ) false = "W000.30.00.000" := by
  obtain ⟨hm, hs, -, -⟩ := dmsComponents_spec v
  refine ⟨(dmsComponents v).1, (dmsComponents v).2.1, (dmsComponents v).2.2,
    decimal_to_dms_eq v is_latitude, hm, hs, ?_, ?_, ?_, ?_, dms_value_close v,
    by with_unfolding_all rfl, by with_unfolding_all rfl⟩
  · rw [padZeros_length]
    have := decRepr_length_le 1 (dmsComponents v).2.1 (by omega)
    have := decRepr_length_pos (dmsComponents v).2.1
    omega
  · rw [padZeros_length]
    have := decRepr_length_le 1 (dmsComponents v).2.2 (by omega)
    have := decRepr_length_pos (dmsComponents v).2.2
    omega
  · rw [padZeros_length]
    omega
  · by_cases hd : (dmsComponents v).1 ≤ 999
    · left
      rw [padZeros_length]
      have := decRepr_length_le 2 (dmsComponents v).1 (by omega)
      have := decRepr_length_pos (dmsComponents v).1
      omega
    · right
      omega

set_option maxRecDepth 8000 in
/-- C2 counterexample: at the finite value 1000 the claimed fixed
format fails: the degrees field of the output has four digits, so the
output has 15 characters while the format claimed for every finite
value always has 14, as the claim's own example does. -/
theorem decimal_to_dms_wide_degrees :
    decimal_to_dms (1000 : ℚ) true = "N1000.00.00.000" ∧
    (decimal_to_dms (1000 : ℚ) true).length = 15 ∧
    ("N052.30.00.000" : String).length = 14 := by
  refine ⟨by with_unfolding_all rfl, by with_unfolding_all rfl, by with_unfolding_all rfl⟩

/-- C7: for every latitude value v in [-90, 90], reading the degrees,
minutes and seconds fields of decimal_to_dms v latitude back into a
signed decimal value, with the direction letter giving the sign, lands
within one arc-second of v. -/
theorem dms_roundtrip_latitude (v : ℚ) (h1 : -90 ≤ v) (h2 : v ≤ 90) :
    ∃ (dir : Char) (d m s : ℕ),
      decimal_to_dms v true = renderDMS dir d m s ∧
      (dir = 'N' ∨ dir = 'S') ∧
      |(if dir = 'S' then -((d : ℚ) + (m : ℚ) / 60 + (s : ℚ) / 3600)
        else ((d : ℚ) + (m : ℚ) / 60 + (s : ℚ) / 3600)) - v| ≤ 1 / 3600 := by
  have hclose := dms_value_close v
  by_cases hv : v < 0
  · refine ⟨'S', (dmsComponents v).1, (dmsComponents v).2.1, (dmsComponents v).2.2,
      ?_, Or.inr rfl, ?_⟩
    · rw [decimal_to_dms_eq v true]
      simp [hv]
    · rw [if_pos rfl]
      have habs : |v| = -v := abs_of_neg hv
      have h3 : -(((dmsComponents v).1 : ℚ) + ((dmsComponents v).2.1 : ℚ) / 60 +
          ((dmsComponents v).2.2 : ℚ) / 3600) - v =
          -((((dmsComponents v).1 : ℚ) + ((dmsComponents v).2.1 : ℚ) / 60 +
            ((dmsComponents v).2.2 : ℚ) / 3600) - |v|) := by
        rw [habs]
        ring
      rw [h3, abs_neg]
      linarith
  · refine ⟨'N', (dmsComponents v).1, (dmsComponents v).2.1, (dmsComponents v).2.2,
      ?_, Or.inl rfl, ?_⟩
    · rw [decimal_to_dms_eq v true]
      simp [hv]
    · rw [if_neg (by decide : ¬ ('N' = 'S'))]
      have habs : |v| = v := abs_of_nonneg (by linarith)
      rw [habs] at hclose
      linarith

/-- C7 witness at latitude 52.5. -/
theorem dms_roundtrip_latitude_witness :
    (-90 ≤ (52.5 : ℚ)) ∧ ((52.5 : ℚ) ≤ 90) ∧
    ∃ (dir : Char) (d m s : ℕ),
      decimal_to_dms (52.5 : ℚ) true = renderDMS dir d m s ∧
      (dir = 'N' ∨ dir = 'S') ∧
      |(if dir = 'S' then -((d : ℚ) + (m : ℚ) / 60 + (s : ℚ) / 3600)
        else ((d : ℚ) + (m : ℚ) / 60 + (s : ℚ) / 3600)) - 52.5| ≤ 1 / 3600 :=
  ⟨by norm_num, by norm_num,
    dms_roundtrip_latitude 52.5 (by norm_num) (by norm_num)⟩

/-- C4: format_altitude is absent exactly when the input is None, the
empty string, a float parse failure, or truncates to an integer at most
0; otherwise it returns the unpadded decimal text of the truncated
integer floor-divided by 100.  In particular "3500" gives "35" and "0",
"-5", "" and None are absent. -/
theorem format_altitude_spec (a : Option String) :
    (format_altitude a = none ↔
      a = none ∨ a = some "" ∨
      (∃ s, a = some s ∧ pyFloat? s = none) ∨
      (∃ s q, a = some s ∧ pyFloat? s = some q ∧ pyTrunc q ≤ 0)) ∧
    (∀ s q, a = some s → pyFloat? s = some q → 0 < pyTrunc q →
      format_altitude a = some (String.mk (decRepr ((pyTrunc q).toNat / 100)))) ∧
    format_altitude (some "3500") = some "35" ∧
    format_altitude (some "0") = none ∧
    format_altitude (some "-5") = none ∧
    format_altitude (some "") = none ∧
    format_altitude none = none := by
  refine ⟨?_, ?_, by with_unfolding_all rfl, by with_unfolding_all rfl,
    by with_unfolding_all rfl, rfl, rfl⟩
  · cases a with
    | none => simp [format_altitude]
    | some s =>
      by_cases hs : s = ""
      · subst hs
        simp [format_altitude]
      · rw [show format_altitude (some s) =
            (match pyFloat? s with
             | none => none
             | some q =>
               if pyTrunc q ≤ 0 then none
               else some (String.mk (decRepr ((pyTrunc q).toNat / 100)))) by
          simp [format_altitude, hs]]
        cases hf : pyFloat? s with
        | none => simp [hs, hf]
        | some q =>
          by_cases hq : pyTrunc q ≤ 0
          · simp [hs, hf, hq]
          · simp [hs, hf, hq]
  · intro s q hsa hf hq
    subst hsa
    have hs : ¬ (s = "") := by
      intro hs
      subst hs
      rw [show pyFloat? "" = none from rfl] at hf
      exact Option.noConfusion hf
    simp [format_altitude, hs, hf, not_le.2 hq]

/-- C4 witness at the input "3500". -/
theorem format_altitude_spec_witness :
    pyFloat? "3500" = some 3500 ∧ 0 < pyTrunc 3500 ∧
    format_altitude (some "3500") =
      some (String.mk (decRepr ((pyTrunc 3500).toNat / 100))) := by
  refine ⟨by with_unfolding_all rfl, by norm_num [pyTrunc], ?_⟩
  exact (format_altitude_spec (some "3500")).2.1 "3500" 3500 rfl
    (by with_unfolding_all rfl) (by norm_num [pyTrunc])

/-- C9: a polygon record with n >= 3 vertices contributes exactly n
LINE entries, in place, and the i-th of them joins vertex i to vertex
(i+1) mod n, the last entry closing the polygon back to vertex 0. -/
theorem generate_line_entries_spec (pre post : List PolyRec) (p : PolyRec) (n : ℕ)
    (hn : p.coords.length = n) (h3 : 3 ≤ n) :
    generate_line_entries (pre ++ p :: post) =
      generate_line_entries pre ++ (List.range n).map (lineEntry p.coords) ++
        generate_line_entries post ∧
    ((List.range n).map (lineEntry p.coords)).length = n ∧
    (∀ i, i < n →
      ((List.range n).map (lineEntry p.coords)).getD i "" =
        "LINE:" ++ decimal_to_dms (p.coords.getD i (0, 0)).1 true ++ ":" ++
          decimal_to_dms (p.coords.getD i (0, 0)).2 false ++ ":" ++
          decimal_to_dms (p.coords.getD ((i + 1) % n) (0, 0)).1 true ++ ":" ++
          decimal_to_dms (p.coords.getD ((i + 1) % n) (0, 0)).2 false) := by
  refine ⟨?_, by simp, ?_⟩
  · simp only [generate_line_entries, List.flatMap_append, List.flatMap_cons]
    rw [hn, if_neg (by omega)]
    simp [List.append_assoc]
  · intro i hi
    rw [List.getD_eq_getElem _ _ (by simpa using hi)]
    simp only [List.getElem_map, List.getElem_range]
    simp only [lineEntry, hn]

/-- C9 witness: a triangle in isolation yields three LINE entries with
the expected endpoints. -/
theorem generate_line_entries_spec_witness :
    ((⟨[(0, 0), (0, 10), (10, 0)], none⟩ : PolyRec).coords.length = 3) ∧
    generate_line_entries [⟨[(0, 0), (0, 10), (10, 0)], none⟩] =
      [] ++ (List.range 3).map (lineEntry [(0, 0), (0, 10), (10, 0)]) ++ [] :=
  ⟨rfl, ((generate_line_entries_spec [] [] ⟨[(0, 0), (0, 10), (10, 0)], none⟩ 3
    rfl (by omega)).1)⟩

/-- C10: any value truncating to an integer strictly between 0 and 100
formats as the token "0"; a row whose two altitude columns both format
as absent gets the raw default "30" on both sides; "30" itself formats
as "0"; and a polygon carrying altitude "30" does produce a TEXT entry
whose altitude token is "0", because the emission check only skips
falsy (absent or empty) tokens. -/
theorem format_altitude_small_spec :
    (∀ s q, pyFloat? s = some q → 0 < pyTrunc q → pyTrunc q < 100 →
      format_altitude (some s) = some "0") ∧
    (∀ w c, format_altitude w = none → format_altitude c = none →
      resolve_row_altitudes w c = (some "30", some "30")) ∧
    format_altitude (some "30") = some "0" ∧
    generate_text_entries
        (fun _ => ⟨false, Except.ok (13, 52), fun _ => true, Except.ok (13, 52)⟩)
        [⟨[(52, 13), (52, 14), (53, 13)], some "30"⟩] =
      ["TEXT:N052.00.00.000:E013.00.00.000:0"] := by
  refine ⟨?_, ?_, by with_unfolding_all rfl, by with_unfolding_all rfl⟩
  · intro s q hf h0 h100
    have hs : ¬ (s = "") := by
      intro hs
      subst hs
      rw [show pyFloat? "" = none from rfl] at hf
      exact Option.noConfusion hf
    have hdiv : (pyTrunc q).toNat / 100 = 0 := Nat.div_eq_of_lt (by omega)
    simp only [format_altitude, hs, if_false, hf, if_neg (not_le.2 h0), hdiv]
    with_unfolding_all rfl
  · intro w c hw hc
    simp [resolve_row_altitudes, hw, hc, truthy]

/-- C10 witness at the value "50" and at two absent columns. -/
theorem format_altitude_small_spec_witness :
    pyFloat? "50" = some 50 ∧ 0 < pyTrunc 50 ∧ pyTrunc 50 < 100 ∧
    format_altitude (some "50") = some "0" ∧
    format_altitude none = none ∧
    resolve_row_altitudes none none = (some "30", some "30") :=
  ⟨by with_unfolding_all rfl, by norm_num [pyTrunc], by norm_num [pyTrunc],
    (format_altitude_small_spec).1 "50" 50 (by with_unfolding_all rfl)
      (by norm_num [pyTrunc]) (by norm_num [pyTrunc]),
    rfl,
    (format_altitude_small_spec).2.1 none none rfl rfl⟩

theorem midSeq_shift (start inside : ℚ × ℚ) :
    ∀ j : ℕ, midSeq ((start.1 + inside.1) / 2, (start.2 + inside.2) / 2) inside j =
      midSeq start inside (j + 1) := by
  intro j
  induction j with
  | zero => rfl
  | succ j ih => simp only [midSeq, ih]

/-- First-hit characterization of the bisection loop: a successful run
returns the first contained candidate of the midpoint sequence within
the fuel, and a failed run means every candidate within the fuel fails
containment. -/
theorem bisectLoop_first_hit (G : GeomBackend) (inside : ℚ × ℚ) :
    ∀ (n : ℕ) (start : ℚ × ℚ),
      (∀ q, bisectLoop G start inside n = some q →
        G.contains q = true ∧
        ∃ i, 1 ≤ i ∧ i ≤ n ∧ q = midSeq start inside i ∧
          (∀ j, 1 ≤ j → j < i → G.contains (midSeq start inside j) = false)) ∧
      (bisectLoop G start inside n = none →
        ∀ j, 1 ≤ j → j ≤ n → G.contains (midSeq start inside j) = false) := by
  intro n
  induction n with
  | zero =>
    intro start
    exact ⟨fun q hq => Option.noConfusion hq,
      fun _ j hj1 hj0 => absurd hj0 (by omega)⟩
  | succ n ih =>
    intro start
    have hm1 : ((start.1 + inside.1) / 2, (start.2 + inside.2) / 2) =
        midSeq start inside 1 := rfl
    have hshift := midSeq_shift start inside
    constructor
    · intro q hq
      rw [bisectLoop] at hq
      split at hq
      next hc =>
        obtain rfl := (Option.some.inj hq).symm
        refine ⟨hc, 1, le_refl 1, by omega, hm1, ?_⟩
        intro j hj1 hj2
        omega
      next hc =>
        obtain ⟨hcq, i, hi1, hin, hqe, hmin⟩ :=
          (ih ((start.1 + inside.1) / 2, (start.2 + inside.2) / 2)).1 q hq
        refine ⟨hcq, i + 1, by omega, by omega, by rw [hqe, hshift], ?_⟩
        intro j hj1 hj2
        obtain ⟨k, rfl⟩ : ∃ k, j = k + 1 := ⟨j - 1, by omega⟩
        rw [← hshift k]
        by_cases hk : k = 0
        · subst hk
          simp only [midSeq]
          simpa using hc
        · exact hmin k (by omega) (by omega)
    · intro hq
      rw [bisectLoop] at hq
      split at hq
      next hc => exact Option.noConfusion hq
      next hc =>
        have hall := (ih ((start.1 + inside.1) / 2, (start.2 + inside.2) / 2)).2 hq
        intro j hj1 hj2
        obtain ⟨k, rfl⟩ : ∃ k, j = k + 1 := ⟨j - 1, by omega⟩
        rw [← hshift k]
        by_cases hk : k = 0
        · subst hk
          simp only [midSeq]
          simpa using hc
        · exact hall k (by omega) (by omega)

/-- C1: for a polygon of at least 3 vertices whose Shapely object is
nonempty and whose representative point (interior anchor) satisfies the
containment predicate — the guarantees Shapely gives for a simple
polygon — calculate_centroid returns a point satisfying containment and
never returns None: the centroid itself when contained, otherwise the
first contained candidate of the at most 10 bisection points toward the
anchor, otherwise the anchor itself. -/
theorem calculate_centroid_contained (G : GeomBackend) (coords : List (ℚ × ℚ))
    (h3 : 3 ≤ coords.length) (hne : G.isEmpty = false)
    (c a : ℚ × ℚ) (hc : G.centroid = Except.ok c) (ha : G.reprPoint = Except.ok a)
    (hin : G.contains a = true) :
    (∃ p, calculate_centroid G coords = some (p.2, p.1) ∧ G.contains p = true) ∧
    (G.contains c = true → calculate_centroid G coords = some (c.2, c.1)) ∧
    (G.contains c = false →
      (∃ i, 1 ≤ i ∧ i ≤ 10 ∧ G.contains (midSeq c a i) = true ∧
        (∀ j, 1 ≤ j → j < i → G.contains (midSeq c a j) = false) ∧
        calculate_centroid G coords = some ((midSeq c a i).2, (midSeq c a i).1)) ∨
      ((∀ j, 1 ≤ j → j ≤ 10 → G.contains (midSeq c a j) = false) ∧
        calculate_centroid G coords = some (a.2, a.1))) := by
  have hunfold : calculate_centroid G coords =
      (if G.contains c then some (c.2, c.1)
       else
         match bisectLoop G c a 10 with
         | some p => some (p.2, p.1)
         | none => some (a.2, a.1)) := by
    simp only [calculate_centroid, if_neg (by omega : ¬ coords.length < 3), hne,
      Bool.false_eq_true, if_false, hc, ha]
  by_cases hcc : G.contains c = true
  · rw [hunfold, if_pos hcc]
    refine ⟨⟨c, rfl, hcc⟩, fun _ => rfl, fun hf => absurd hcc (by simp [hf])⟩
  · have hccf : G.contains c = false := by simpa using hcc
    rw [hunfold, if_neg hcc]
    cases hb : bisectLoop G c a 10 with
    | some q =>
      obtain ⟨hq, i, hi1, hi10, hqe, hmin⟩ :=
        (bisectLoop_first_hit G a 10 c).1 q hb
      refine ⟨⟨q, rfl, hq⟩, fun hf => absurd hf (by simp [hccf]), fun _ => ?_⟩
      exact Or.inl ⟨i, hi1, hi10, by rw [← hqe]; exact hq,
        hmin, by rw [← hqe]⟩
    | none =>
      have hall := (bisectLoop_first_hit G a 10 c).2 hb
      refine ⟨⟨a, rfl, hin⟩, fun hf => absurd hf (by simp [hccf]), fun _ => ?_⟩
      exact Or.inr ⟨hall, rfl⟩

/-- A geometry backend for the witness triangle (0,0), (0,10), (10,0):
its centroid (10/3, 10/3) lies inside, so containment always holds for
the points the algorithm tests. -/
def triBackend : GeomBackend :=
  ⟨false, Except.ok (10 / 3, 10 / 3), fun _ => true, Except.ok (10 / 3, 10 / 3)⟩

/-- The witness triangle's vertices as latitude-longitude pairs. -/
def triCoords : List (ℚ × ℚ) := [(0, 0), (0, 10), (10, 0)]

/-- C1 witness at the triangle (0,0), (0,10), (10,0). -/
theorem calculate_centroid_contained_witness :
    3 ≤ triCoords.length ∧ triBackend.isEmpty = false ∧
    triBackend.centroid = Except.ok (10 / 3, 10 / 3) ∧
    triBackend.reprPoint = Except.ok (10 / 3, 10 / 3) ∧
    triBackend.contains (10 / 3, 10 / 3) = true ∧
    ∃ p, calculate_centroid triBackend triCoords = some (p.2, p.1) ∧
      triBackend.contains p = true :=
  ⟨by simp [triCoords], rfl, rfl, rfl, rfl,
    (calculate_centroid_contained triBackend triCoords (by simp [triCoords])
      rfl (10 / 3, 10 / 3) (10 / 3, 10 / 3) rfl rfl rfl).1⟩

/-- C3 (amended): for a polygon of at least 3 vertices, when the
geometry backend reports the polygon empty, calculate_centroid returns
no result (mva_parser.py lines 178-180); the arithmetic mean of the
vertex coordinates is returned instead when the geometric computation
faults — when centroid raises, or when the centroid is not contained
and representative_point raises — and likewise by the branch used when
the geometry library is unavailable. -/
theorem calculate_centroid_degenerate (G : GeomBackend) (coords : List (ℚ × ℚ))
    (h3 : 3 ≤ coords.length) :
    (G.isEmpty = true → calculate_centroid G coords = none) ∧
    (G.isEmpty = false → G.centroid = Except.error () →
      calculate_centroid G coords = some (vertexMean coords)) ∧
    (∀ c, G.isEmpty = false → G.centroid = Except.ok c → G.contains c = false →
      G.reprPoint = Except.error () →
      calculate_centroid G coords = some (vertexMean coords)) ∧
    calculate_centroid_noshapely coords = some (vertexMean coords) := by
  have hlen : ¬ (coords.length < 3) := by omega
  refine ⟨?_, ?_, ?_, ?_⟩
  · intro he
    simp [calculate_centroid, hlen, he]
  · intro he hc
    simp [calculate_centroid, hlen, he, hc]
  · intro c he hc hcc hr
    simp [calculate_centroid, hlen, he, hc, hcc, hr]
  · simp [calculate_centroid_noshapely, hlen]

/-- A geometry backend whose polygon object reports empty, as the
Shapely object of a fully degenerate (empty-area) polygon does; its
other operations are immaterial since the source returns before them. -/
def emptyBackend : GeomBackend :=
  ⟨true, Except.ok (1, 1), fun _ => false, Except.error ()⟩

/-- Three collinear vertices: a polygon of 3 vertices with zero
geometric area. -/
def collinearCoords : List (ℚ × ℚ) := [(0, 0), (1, 1), (2, 2)]

/-- C3 counterexample: on a zero-area polygon of 3 vertices whose
backend polygon object is empty, calculate_centroid returns None ("no
result") through the is_empty branch, not the arithmetic mean (1, 1) of
the vertices, refuting the claim at this input. -/
theorem calculate_centroid_empty_not_mean :
    calculate_centroid emptyBackend collinearCoords = none ∧
    vertexMean collinearCoords = (1, 1) ∧
    calculate_centroid emptyBackend collinearCoords ≠
      some (vertexMean collinearCoords) := by
  refine ⟨by with_unfolding_all rfl, by with_unfolding_all rfl, ?_⟩
  rw [show calculate_centroid emptyBackend collinearCoords = none from
    by with_unfolding_all rfl]
  simp

/-- C3 witness: the amended behaviour at the collinear triangle, for a
backend whose centroid computation raises. -/
theorem calculate_centroid_degenerate_witness :
    3 ≤ collinearCoords.length ∧
    (emptyBackend.isEmpty = true →
      calculate_centroid emptyBackend collinearCoords = none) ∧
    calculate_centroid
        (⟨false, Except.error (), fun _ => false, Except.error ()⟩ : GeomBackend)
        collinearCoords = some (vertexMean collinearCoords) :=
  ⟨by simp [collinearCoords],
    (calculate_centroid_degenerate emptyBackend collinearCoords
      (by simp [collinearCoords])).1,
    (calculate_centroid_degenerate
      (⟨false, Except.error (), fun _ => false, Except.error ()⟩ : GeomBackend)
      collinearCoords (by simp [collinearCoords])).2.1 rfl rfl⟩

/-- Reading of one coordinate token in written (WKT) order, without the
swap: the first number and the second number of the token. -/
def tokenLonLat (tok : List Char) : Option (ℚ × ℚ) :=
  match pySplitWS (stripWS tok) with
  | p0 :: p1 :: _ =>
    match pyFloatChars? p0, pyFloatChars? p1 with
    | some lon, some lat => some (lon, lat)
    | _, _ => none
  | _ => none

/-- C5: parse_geometry reads the first number of each coordinate token
as longitude and the second as latitude and applies the lon-lat to
lat-lon swap exactly once (every kept pair is the reversal of the pair
as written, in token order), and the spec's example yields exactly 4
vertices whose first is (52.0, 13.0). -/
theorem parse_geometry_lonlat_swap :
    (∀ tok, parsePair tok =
      (tokenLonLat tok).bind fun ll =>
        if -180 ≤ ll.1 ∧ ll.1 ≤ 180 ∧ -90 ≤ ll.2 ∧ ll.2 ≤ 90
        then some (ll.2, ll.1) else none) ∧
    parse_geometry (some "POLYGON((13.0 52.0, 13.1 52.0, 13.1 52.1, 13.0 52.1))") =
      [(52, 13), (52, 131 / 10), (521 / 10, 131 / 10), (521 / 10, 13)] ∧
    (parse_geometry
      (some "POLYGON((13.0 52.0, 13.1 52.0, 13.1 52.1, 13.0 52.1))")).length = 4 ∧
    (parse_geometry
      (some "POLYGON((13.0 52.0, 13.1 52.0, 13.1 52.1, 13.0 52.1))")).getD 0 (0, 0) =
      (52, 13) := by
  refine ⟨?_, by with_unfolding_all rfl, by with_unfolding_all rfl,
    by with_unfolding_all rfl⟩
  intro tok
  unfold parsePair tokenLonLat
  rcases pySplitWS (stripWS tok) with _ | ⟨p0, _ | ⟨p1, rest⟩⟩
  · rfl
  · rfl
  · dsimp only
    rcases pyFloatChars? p0 with _ | lon
    · rfl
    · rcases pyFloatChars? p1 with _ | lat <;> rfl

/-- A kept pair always carries an in-range latitude and longitude
(mva_parser.py line 65). -/
theorem parsePair_range {tok : List Char} {v : ℚ × ℚ}
    (h : parsePair tok = some v) :
    -90 ≤ v.1 ∧ v.1 ≤ 90 ∧ -180 ≤ v.2 ∧ v.2 ≤ 180 := by
  unfold parsePair at h
  rcases hsp : pySplitWS (stripWS tok) with _ | ⟨p0, _ | ⟨p1, rest⟩⟩ <;>
    rw [hsp] at h
  · exact Option.noConfusion h
  · exact Option.noConfusion h
  · dsimp only at h
    rcases hp0 : pyFloatChars? p0 with _ | lon <;> rw [hp0] at h
    · simp at h
    · rcases hp1 : pyFloatChars? p1 with _ | lat <;> rw [hp1] at h
      · simp at h
      · dsimp only at h
        split_ifs at h with hcond
        obtain ⟨h1, h2, h3, h4⟩ := hcond
        cases h
        exact ⟨h3, h4, h1, h2⟩

/-- The coordinate extraction returns either nothing or at least three
pairs (mva_parser.py lines 70-72). -/
theorem processContent_cases (content : List Char) :
    processContent content = [] ∨ 3 ≤ (processContent content).length := by
  simp only [processContent]
  split_ifs with h
  · exact Or.inl rfl
  · exact Or.inr (by omega)

/-- C6: parse_geometry is total and safe: missing input, the empty
string and strings with no double-parenthesized content give the empty
sequence; every result is empty or has at least 3 vertices; every
returned vertex is in latitude/longitude range (out-of-range and
malformed tokens are dropped without failing the polygon, as the last
conjunct shows on a polygon with a junk token and an out-of-range
pair); and "not geometry" gives the empty sequence. -/
theorem parse_geometry_safe :
    parse_geometry none = [] ∧
    parse_geometry (some "") = [] ∧
    (∀ s : String, searchPoly s.data = none → searchDD s.data = none →
      parse_geometry (some s) = []) ∧
    (∀ g : Option String,
      parse_geometry g = [] ∨ 3 ≤ (parse_geometry g).length) ∧
    (∀ g : Option String, ∀ v ∈ parse_geometry g,
      -90 ≤ v.1 ∧ v.1 ≤ 90 ∧ -180 ≤ v.2 ∧ v.2 ≤ 180) ∧
    parse_geometry (some "not geometry") = [] ∧
    parse_geometry
        (some "POLYGON((13.0 52.0, junk, 13.1 52.0, 900 900, 13.1 52.1))") =
      [(52, 13), (52, 131 / 10), (521 / 10, 131 / 10)] := by
  refine ⟨rfl, rfl, ?_, ?_, ?_, by with_unfolding_all rfl,
    by with_unfolding_all rfl⟩
  · intro s h1 h2
    by_cases hs : s = ""
    · simp [parse_geometry, hs]
    · simp [parse_geometry, hs, h1, h2]
  · intro g
    cases g with
    | none => exact Or.inl rfl
    | some s =>
      by_cases hs : s = ""
      · exact Or.inl (by simp [parse_geometry, hs])
      · rcases hsp : searchPoly s.data with _ | content
        · rcases hsd : searchDD s.data with _ | content
          · exact Or.inl (by simp [parse_geometry, hs, hsp, hsd])
          · have he : parse_geometry (some s) = processContent content := by
              simp [parse_geometry, hs, hsp, hsd]
            rw [he]
            exact processContent_cases content
        · have he : parse_geometry (some s) = processContent content := by
            simp [parse_geometry, hs, hsp]
          rw [he]
          exact processContent_cases content
  · intro g v hv
    cases g with
    | none => simp [parse_geometry] at hv
    | some s =>
      by_cases hs : s = ""
      · rw [show parse_geometry (some s) = [] from by simp [parse_geometry, hs]] at hv
        simp at hv
      · have hmem : ∀ content, v ∈ processContent content →
            -90 ≤ v.1 ∧ v.1 ≤ 90 ∧ -180 ≤ v.2 ∧ v.2 ≤ 180 := by
          intro content hvc
          simp only [processContent] at hvc
          split_ifs at hvc with h
          · simp at hvc
          · obtain ⟨tok, -, htok⟩ := List.mem_filterMap.1 hvc
            exact parsePair_range htok
        rcases hsp : searchPoly s.data with _ | content
        · rcases hsd : searchDD s.data with _ | content
          · rw [show parse_geometry (some s) = [] from
              by simp [parse_geometry, hs, hsp, hsd]] at hv
            simp at hv
          · rw [show parse_geometry (some s) = processContent content from
              by simp [parse_geometry, hs, hsp, hsd]] at hv
            exact hmem content hv
        · rw [show parse_geometry (some s) = processContent content from
            by simp [parse_geometry, hs, hsp]] at hv
          exact hmem content hv

/-- C6 witness at the input "not geometry" and at a concrete in-range
vertex of the spec's example polygon. -/
theorem parse_geometry_safe_witness :
    searchPoly ("not geometry".data) = none ∧
    searchDD ("not geometry".data) = none ∧
    parse_geometry (some "not geometry") = [] ∧
    ((52 : ℚ), (13 : ℚ)) ∈
      parse_geometry (some "POLYGON((13.0 52.0, 13.1 52.0, 13.1 52.1, 13.0 52.1))") ∧
    (-90 ≤ (52 : ℚ) ∧ (52 : ℚ) ≤ 90 ∧ -180 ≤ (13 : ℚ) ∧ (13 : ℚ) ≤ 180) :=
  ⟨by with_unfolding_all rfl, by with_unfolding_all rfl,
    parse_geometry_safe.2.2.1 "not geometry" (by with_unfolding_all rfl)
      (by with_unfolding_all rfl),
    by rw [show parse_geometry
        (some "POLYGON((13.0 52.0, 13.1 52.0, 13.1 52.1, 13.0 52.1))") =
        [(52, 13), (52, 131 / 10), (521 / 10, 131 / 10), (521 / 10, 13)] from
        by with_unfolding_all rfl]
       exact List.mem_cons_self _ _,
    parse_geometry_safe.2.2.2.2.1
      (some "POLYGON((13.0 52.0, 13.1 52.0, 13.1 52.1, 13.0 52.1))") (52, 13)
      (by rw [show parse_geometry
          (some "POLYGON((13.0 52.0, 13.1 52.0, 13.1 52.1, 13.0 52.1))") =
          [(52, 13), (52, 131 / 10), (521 / 10, 131 / 10), (521 / 10, 13)] from
          by with_unfolding_all rfl]
          exact List.mem_cons_self _ _)⟩

theorem begins_append (p t : List Char) : begins p (p ++ t) = true := by
  induction p with
  | nil => rfl
  | cons a p' ih => simp [begins, ih]

theorem skipWS_ws_append {w : List Char} (hw : ∀ x ∈ w, pyWS x = true)
    (r : List Char) : skipWS (w ++ '(' :: r) = '(' :: r := by
  induction w with
  | nil =>
    rw [List.nil_append, skipWS, if_neg (by decide : ¬ (pyWS '(' = true))]
  | cons a w' ih =>
    have ha : pyWS a = true := hw a (List.mem_cons_self a w')
    simp only [List.cons_append, skipWS, ha, if_true]
    exact ih fun x hx => hw x (List.mem_cons_of_mem a hx)

theorem hasStop_tail {x : Char} {l : List Char}
    (h : hasStop (x :: l) = false) : hasStop l = false := by
  cases l with
  | nil => rfl
  | cons y r =>
    rw [hasStop] at h
    split_ifs at h
    exact h

/-- Under the no-stop condition the lazy group takes exactly the chunk
before the first two closing parentheses. -/
theorem grabContent_eq : ∀ (c : List Char), hasStop (c ++ [')']) = false →
    ∀ rest, grabContent (c ++ ')' :: ')' :: rest) = some (c, rest) := by
  intro c
  induction c with
  | nil =>
    intro _ rest
    simp [grabContent]
  | cons a c' ih =>
    intro h rest
    have htail : hasStop (c' ++ [')']) = false := hasStop_tail (by simpa using h)
    cases c' with
    | nil =>
      have ha : ¬ (a = ')') := by
        intro haeq
        subst haeq
        simp [hasStop] at h
      have ha2 : ¬ (a = '\n') := by
        intro haeq
        subst haeq
        simp [hasStop] at h
      rw [show ([a] : List Char) ++ ')' :: ')' :: rest = a :: ')' :: ')' :: rest
        from rfl]
      rw [grabContent]
      rw [if_neg (by simp [ha]), if_neg ha2]
      simp [grabContent]
    | cons b c'' =>
      have hab : ¬ (a = ')' ∧ b = ')') := by
        rintro ⟨rfl, rfl⟩
        simp [hasStop] at h
      have ha2 : ¬ (a = '\n') := by
        intro haeq
        subst haeq
        simp [hasStop] at h
      rw [show (a :: b :: c'' : List Char) ++ ')' :: ')' :: rest =
        a :: ((b :: c'') ++ ')' :: ')' :: rest) from rfl]
      rw [show (b :: c'' : List Char) ++ ')' :: ')' :: rest =
        b :: (c'' ++ ')' :: ')' :: rest) from rfl]
      rw [grabContent]
      rw [if_neg hab, if_neg ha2]
      have := ih htail rest
      rw [show (b :: c'' : List Char) ++ ')' :: ')' :: rest =
        b :: (c'' ++ ')' :: ')' :: rest) from rfl] at this
      rw [this]

theorem searchPoly_eq_none : ∀ {s : List Char},
    containsSub polyKW s = false → searchPoly s = none := by
  intro s
  induction s with
  | nil => intro _; rfl
  | cons c r ih =>
    intro h
    rw [containsSub, Bool.or_eq_false_iff] at h
    rw [searchPoly, matchPolyAt, if_neg (by simp [h.1])]
    exact ih h.2

theorem searchDD_skip : ∀ {w : List Char}, (∀ x ∈ w, ¬ (x = '(')) →
    ∀ s, searchDD (w ++ s) = searchDD s := by
  intro w
  induction w with
  | nil => intro _ s; rfl
  | cons a w' ih =>
    intro hw s
    have ha : ¬ (a = '(') := hw a (List.mem_cons_self a w')
    rw [List.cons_append, searchDD]
    have hm : matchDDAt (a :: (w' ++ s)) = none := by
      cases hws : w' ++ s with
      | nil => rfl
      | cons b t => rw [matchDDAt, if_neg (by simp [ha])]
    rw [hm]
    exact ih (fun x hx => hw x (List.mem_cons_of_mem a hx)) s

theorem searchDD_hit {c : List Char} (hc : hasStop (c ++ [')']) = false)
    (z : List Char) :
    searchDD ('(' :: '(' :: (c ++ ')' :: ')' :: z)) = some c := by
  rw [searchDD, matchDDAt, if_pos ⟨rfl, rfl⟩, grabContent_eq c hc z]
  rfl

theorem searchPoly_hit {ws c : List Char} (hws : ∀ x ∈ ws, pyWS x = true)
    (hc : hasStop (c ++ [')']) = false) (z : List Char) :
    searchPoly (polyKW ++ (ws ++ '(' :: '(' :: (c ++ ')' :: ')' :: z))) =
      some c := by
  have hp : matchPolyAt (polyKW ++ (ws ++ '(' :: '(' :: (c ++ ')' :: ')' :: z))) =
      some c := by
    rw [matchPolyAt, if_pos (begins_append polyKW _)]
    rw [show (polyKW ++ (ws ++ '(' :: '(' :: (c ++ ')' :: ')' :: z))).drop 7 =
      ws ++ '(' :: '(' :: (c ++ ')' :: ')' :: z) from by
        rw [show (7 : ℕ) = polyKW.length from rfl, List.drop_left]]
    rw [show (ws ++ '(' :: '(' :: (c ++ ')' :: ')' :: z) : List Char) =
      ws ++ '(' :: ('(' :: (c ++ ')' :: ')' :: z)) from rfl]
    rw [skipWS_ws_append hws]
    dsimp only
    rw [if_pos ⟨rfl, rfl⟩, grabContent_eq c hc z]
    rfl
  rw [show (polyKW ++ (ws ++ '(' :: '(' :: (c ++ ')' :: ')' :: z)) : List Char) =
    'P' :: ('O' :: 'L' :: 'Y' :: 'G' :: 'O' :: 'N' ::
      (ws ++ '(' :: '(' :: (c ++ ')' :: ')' :: z))) from rfl]
  rw [searchPoly]
  rw [show ('P' :: ('O' :: 'L' :: 'Y' :: 'G' :: 'O' :: 'N' ::
      (ws ++ '(' :: '(' :: (c ++ ')' :: ')' :: z))) : List Char) =
    polyKW ++ (ws ++ '(' :: '(' :: (c ++ ')' :: ')' :: z)) from rfl]
  rw [hp]

/-- Shape of parse_geometry once the falsiness test on the string has
been passed. -/
theorem parse_geometry_eq_of_ne {s : String} (hne : ¬ (s = "")) :
    parse_geometry (some s) =
      (match (match searchPoly s.data with
              | some c0 => some c0
              | none => searchDD s.data) with
       | none => []
       | some content => processContent content) := by
  rw [parse_geometry, if_neg hne]

/-- C8: a geometry string whose POLYGON keyword appears in any letter
casing, around the same double-parenthesized content, parses to the
same vertex sequence as the uppercase form: the uppercase form is found
by the first pattern and any other casing falls through to the fallback
double-parenthesis pattern, which extracts the same content.  The
stop-free condition on the content says the two closing parentheses
ending the group are the first ones, and the last hypothesis says that
a proper case variation does not accidentally contain the uppercase
keyword elsewhere. -/
theorem parse_geometry_case_variation (kw ws c : List Char)
    (hcase : kw.map upcase = polyKW)
    (hws : ∀ x ∈ ws, pyWS x = true)
    (hc : hasStop (c ++ [')']) = false)
    (hnoup : kw = polyKW ∨
      containsSub polyKW (kw ++ (ws ++ '(' :: '(' :: (c ++ [')', ')']))) = false) :
    parse_geometry
        (some (String.mk (kw ++ (ws ++ '(' :: '(' :: (c ++ [')', ')']))))) =
      parse_geometry
        (some (String.mk (polyKW ++ (ws ++ '(' :: '(' :: (c ++ [')', ')']))))) := by
  have hR : parse_geometry
      (some (String.mk (polyKW ++ (ws ++ '(' :: '(' :: (c ++ [')', ')']))))) =
      processContent c := by
    have hne : ¬ (String.mk (polyKW ++ (ws ++ '(' :: '(' :: (c ++ [')', ')']))) =
        "") := by
      intro h
      have h2 := congrArg String.data h
      rw [show ("" : String).data = [] from rfl] at h2
      simp [polyKW] at h2
    rw [parse_geometry_eq_of_ne hne]
    dsimp only
    rw [searchPoly_hit hws hc]
  rcases hnoup with rfl | hns
  · rfl
  · have hknp : ∀ x ∈ kw, ¬ (x = '(') := by
      intro x hx hxeq
      subst hxeq
      have hmem : upcase '(' ∈ polyKW := by
        rw [← hcase]
        exact List.mem_map_of_mem upcase hx
      rw [show upcase '(' = '(' from by decide] at hmem
      exact absurd hmem (by decide)
    have hwnp : ∀ x ∈ ws, ¬ (x = '(') := by
      intro x hx hxeq
      have hpx := hws x hx
      subst hxeq
      exact absurd hpx (by decide)
    have hne : ¬ (String.mk (kw ++ (ws ++ '(' :: '(' :: (c ++ [')', ')']))) =
        "") := by
      intro h
      have h2 := congrArg String.data h
      rw [show ("" : String).data = [] from rfl] at h2
      simp at h2
    have hL : parse_geometry
        (some (String.mk (kw ++ (ws ++ '(' :: '(' :: (c ++ [')', ')']))))) =
        processContent c := by
      rw [parse_geometry_eq_of_ne hne]
      dsimp only
      rw [searchPoly_eq_none hns]
      rw [show kw ++ (ws ++ '(' :: '(' :: (c ++ [')', ')'])) =
        (kw ++ ws) ++ ('(' :: '(' :: (c ++ [')', ')'])) from by
          rw [List.append_assoc]]
      rw [searchDD_skip (fun x hx => by
        rcases List.mem_append.1 hx with hxk | hxw
        · exact hknp x hxk
        · exact hwnp x hxw)]
      rw [searchDD_hit hc]
    rw [hL, hR]

/-- C8 witness: the lowercase keyword around the spec's example
content. -/
theorem parse_geometry_case_variation_witness :
    ("polygon".data.map upcase = polyKW) ∧
    hasStop ("13.0 52.0, 13.1 52.0, 13.1 52.1".data ++ [')']) = false ∧
    containsSub polyKW ("polygon".data ++
      ([] ++ '(' :: '(' :: ("13.0 52.0, 13.1 52.0, 13.1 52.1".data ++
        [')', ')']))) = false ∧
    parse_geometry (some (String.mk ("polygon".data ++
        ([] ++ '(' :: '(' :: ("13.0 52.0, 13.1 52.0, 13.1 52.1".data ++
          [')', ')']))))) =
      parse_geometry (some (String.mk (polyKW ++
        ([] ++ '(' :: '(' :: ("13.0 52.0, 13.1 52.0, 13.1 52.1".data ++
          [')', ')']))))) :=
  ⟨by decide, by decide, by decide,
    parse_geometry_case_variation "polygon".data []
      "13.0 52.0, 13.1 52.0, 13.1 52.1".data (by decide)
      (fun x hx => absurd hx (by simp)) (by decide) (Or.inr (by decide))⟩

end MvaParser
